import Mathlib

/-!
# Verification of the `activity` Tryton module (`activity.py`, `party.py`)

Shallow embedding of the date/time derivation, calendar color computation,
busy-hours aggregation, workflow transitions, record creation and party-copy
logic of the repository, together with theorems settling the specification
claims.

Modelling conventions:
* Python `datetime.datetime` values are seconds since an epoch (`Int`);
  `datetime.date` is a day number (`Int`); `datetime.time` is the number of
  seconds within the day (`Int`, `0 ≤ t < 86400` for values produced by the
  code); `datetime.timedelta` is a signed number of seconds (`Int`).
  `dt.date()` is floor division by 86400 and `dt.time()` the (non-negative)
  remainder, so that `datetime.combine` is the inverse decomposition, exactly
  as for epoch-based timestamps.
* A Python dict of field updates is a structure whose fields are
  `Option (Option _)`: the outer `Option` is key presence in the dict, the
  inner one distinguishes Python `None` from an actual value.
* A pytz timezone is modelled as `Option (Int → Int)`: `none` when the company
  has no timezone configured, otherwise the function taking a naive datetime
  to the zone's UTC offset at that wall time (`tz.localize(v).utcoffset()`),
  which covers fixed offsets as well as DST-dependent ones.
* Python truthiness: `datetime` / `date` objects are always truthy, `time`
  objects are always truthy on Python ≥ 3.5, a `timedelta` is truthy iff it
  is non-zero, a string is truthy iff non-empty, `None` is falsy.
* A raised exception is an `Option.none` result.
-/

namespace Activity

/-- `dt.date()` for an epoch-seconds datetime: the day number (floor). -/
def dateOf (dt : Int) : Int := Int.ediv dt 86400

/-- `dt.time()` for an epoch-seconds datetime: seconds within the day. -/
def timeOf (dt : Int) : Int := Int.emod dt 86400

/-- `datetime.datetime.combine(date, time)`. -/
def combine (date time : Int) : Int := date * 86400 + time

/-- A company timezone: `none` when unconfigured, otherwise the UTC-offset
function queried at a naive datetime (`tz.localize(v).utcoffset()`). -/
abbrev Timezone := Option (Int → Int)

/-- `Activity.utc_to_local`: identity when no timezone is configured,
otherwise `value + tz.localize(value).utcoffset()`. -/
def utc_to_local (tz : Timezone) (value : Int) : Int :=
  match tz with
  | none => value
  | some off => value + off value

/-- `Activity.local_to_utc`: identity when no timezone is configured,
otherwise `value - tz.localize(value).utcoffset()`. -/
def local_to_utc (tz : Timezone) (value : Int) : Int :=
  match tz with
  | none => value
  | some off => value - off value

/-- The dict of field values handed to `create`/`write`/`update_dates`.
Outer `Option` = key present in the dict; inner `Option` = Python `None`.
The `code` field is set by `create` from the configured sequence (codes are
modelled as numbers). -/
structure Values where
  date : Option (Option Int) := none
  time : Option (Option Int) := none
  duration : Option (Option Int) := none
  dtstart : Option (Option Int) := none
  dtend : Option (Option Int) := none
  code : Option (Option Nat) := none
  deriving DecidableEq, Repr

/-- The stored field values of an existing `activity.activity` record, as read
by `update_dates` and `on_change_dtstart`; `none` is Python `None`. -/
structure Record where
  date : Option Int := none
  time : Option Int := none
  duration : Option Int := none
  dtstart : Option Int := none
  deriving DecidableEq, Repr

/-- Lines 426–429 of `update_dates`: for an update of an existing record, each
of `date`, `time`, `duration` missing from the dict is filled with the
record's current value. -/
def fillFromRecord (values : Values) (record : Option Record) : Values :=
  match record with
  | none => values
  | some r =>
    { values with
      date := match values.date with
        | some v => some v
        | none => some r.date,
      time := match values.time with
        | some v => some v
        | none => some r.time,
      duration := match values.duration with
        | some v => some v
        | none => some r.duration }

/-- Lines 431–445 of `update_dates`: resolve `date`/`time`/`duration` from the
dict (`values.get`), return unchanged if no date; default an absent time to
the current wall-clock time `now`; recompute `dtstart` by local-to-UTC
conversion of `combine(date, time)` and `dtend = dtstart + duration` when the
duration is truthy (a `timedelta` is falsy when zero; the local `time`
variable is a `time` object at that point, hence always truthy). -/
def updateDatesCommon (tz : Timezone) (now : Int) (values : Values) : Values :=
  match values.date.bind id with
  | none => values
  | some date =>
    let time := (values.time.bind id).getD now
    let duration := values.duration.bind id
    let dtstart := local_to_utc tz (combine date time)
    let dtend : Option Int :=
      match duration with
      | some d => if d ≠ 0 then some (dtstart + d) else none
      | none => none
    { values with dtstart := some (some dtstart), dtend := some dtend }

/-- `Activity.update_dates(values, record)` (lines 407–445).  When the dict
has no `date` key: a `dtstart` key derives `date` and `time` directly from its
components (a `None` value raises, modelled as `none`), otherwise the record's
`dtstart` is consulted; if moreover a `dtend` key is present, the duration is
set to `dtend - dtstart` when both are truthy (else `None`) and the dict is
returned immediately.  In all other cases the missing fields are filled from
the record and the common recomputation runs. -/
def update_dates (tz : Timezone) (now : Int) (values : Values)
    (record : Option Record) : Option Values :=
  match values.date with
  | some _ => some (updateDatesCommon tz now (fillFromRecord values record))
  | none =>
    match values.dtstart with
    | some none => none
    | some (some ds) =>
      let v1 := { values with
        date := some (some (dateOf ds)), time := some (some (timeOf ds)) }
      match v1.dtend with
      | some de? =>
        some { v1 with duration := some (match de? with
          | some de => some (de - ds)
          | none => none) }
      | none => some (updateDatesCommon tz now (fillFromRecord v1 record))
    | none =>
      let ds? : Option Int := record.bind (·.dtstart)
      match values.dtend with
      | some de? =>
        some { values with duration := some (match de?, ds? with
          | some de, some ds => some (de - ds)
          | _, _ => none) }
      | none => some (updateDatesCommon tz now (fillFromRecord values record))

/-- `Activity.on_change_dtstart` (lines 341–356): derive `date` and `time`
from `dtstart` converted UTC → company-local; an exactly-midnight local time
is stored as `None` (full-day activity). -/
def on_change_dtstart (tz : Timezone) (self : Record) : Record :=
  match self.dtstart with
  | none => self
  | some ds =>
    let dt := utc_to_local tz ds
    { self with
      date := some (dateOf dt),
      time := if timeOf dt = 0 then none else some (timeOf dt) }

/-! ## Colors (`RGB` class and calendar color getters) -/

/-- Value of a hexadecimal digit, as accepted by Python `int(_, 16)`. -/
def hexDigit? (c : Char) : Option Nat :=
  if '0' ≤ c ∧ c ≤ '9' then some (c.toNat - 48)
  else if 'a' ≤ c ∧ c ≤ 'f' then some (c.toNat - 87)
  else if 'A' ≤ c ∧ c ≤ 'F' then some (c.toNat - 55)
  else none

/-- Accumulate the value of a non-empty run of hex digits. -/
def hexNatAux : List Char → Nat → Option Nat
  | [], acc => some acc
  | c :: rest, acc =>
    match hexDigit? c with
    | some d => hexNatAux rest (16 * acc + d)
    | none => none

/-- A non-empty string of hexadecimal digits, as a natural number. -/
def hexNat? : List Char → Option Nat
  | [] => none
  | cs => hexNatAux cs 0

/-- Python `int(s, 16)`: optional surrounding whitespace, an optional sign,
then a non-empty run of hex digits; `none` models the raised `ValueError`.
(Underscore digit separators need at least three characters and the parser is
only applied to slices of length at most two, so they are not modelled.) -/
def pyIntHex? (cs : List Char) : Option Int :=
  let cs := ((cs.dropWhile Char.isWhitespace).reverse.dropWhile
    Char.isWhitespace).reverse
  match cs with
  | '+' :: rest => (hexNat? rest).map Int.ofNat
  | '-' :: rest => (hexNat? rest).map (fun n => -(n : Int))
  | rest => (hexNat? rest).map Int.ofNat

/-- An RGB triple (the `value` attribute of the `RGB` class).  The parser can
produce signed single-digit channels (Python `int('-f', 16) = -15`), so the
channels are integers; every triple actually built by the module has channels
in `[0, 255]`. -/
structure RGBv where
  r : Int
  g : Int
  b : Int
  deriving DecidableEq, Repr

/-- The module-level fallback `_RGB = (67, 84, 90)`. -/
def fallbackRGB : RGBv := ⟨67, 84, 90⟩

/-- The module-level default color `_COLOR = '#ABD6E3'`. -/
def defaultColor : String := "#ABD6E3"

/-- The `try` block of `RGB.__init__` on a string: strip every leading `#`,
then parse the slices `[0:2]`, `[2:4]`, `[4:6]` with `int(_, 16)`; `none`
models the `ValueError` caught by the `except` clause. -/
def hexTriple? (cs : List Char) : Option RGBv :=
  let cs := cs.dropWhile (· = '#')
  match pyIntHex? (cs.take 2), pyIntHex? ((cs.drop 2).take 2),
      pyIntHex? ((cs.drop 4).take 2) with
  | some x, some y, some z => some ⟨x, y, z⟩
  | _, _, _ => none

/-- `RGB.__init__` on a string: the parsed triple, or `_RGB` on parse
failure. -/
def RGBv.ofString (s : String) : RGBv :=
  match hexTriple? s.data with
  | some v => v
  | none => fallbackRGB

/-- `RGB.gray`: floor average of the three channels (Python `//`). -/
def RGBv.gray (c : RGBv) : Int := Int.fdiv (c.r + c.g + c.b) 3

/-- `RGB.increase`: add `inc` to every channel, clamping to `[0, 255]`
(`max(0, min(255, x + inc))`). -/
def RGBv.increase (c : RGBv) (inc : Int) : RGBv :=
  ⟨max 0 (min 255 (c.r + inc)), max 0 (min 255 (c.g + inc)),
    max 0 (min 255 (c.b + inc))⟩

/-- `RGB.increase_ratio(0.8)`, the only ratio the module uses:
`increase(int((255 - gray()) * 0.8))`.  For `255 - gray ∈ [0, 765]` the
double-precision product `(255 - gray) * 0.8` truncates to exactly
`(255 - gray) * 4 / 5` rounded toward zero (`0.8` rounds up as a double, so
the product never drops below an exact integer multiple, and non-integer exact
values have fractional part at least `0.2`), so the float is modelled by
integer division toward zero. -/
def RGBv.increaseRatio08 (c : RGBv) : RGBv :=
  c.increase (Int.tdiv ((255 - c.gray) * 4) 5)

/-- One channel under `'%02x'`: lowercase hex digits, zero-padded to width
two (channels are clamped to `[0, 255]` before formatting, so two digits and
no sign suffice). -/
def byteHex (n : Nat) : List Char :=
  let ds := Nat.toDigits 16 n
  List.replicate (2 - ds.length) '0' ++ ds

/-- `RGB.hex`: `'#%02x%02x%02x' % value`. -/
def RGBv.hexStr (c : RGBv) : String :=
  ⟨'#' :: (byteHex c.r.toNat ++ byteHex c.g.toNat ++ byteHex c.b.toNat)⟩

/-- The relevant slice of an `activity.type` record. -/
structure ActivityTypeRec where
  color : Option String
  deriving DecidableEq, Repr

/-- The relevant slice of a `company.employee` record. -/
structure EmployeeRec where
  color : Option String
  deriving DecidableEq, Repr

/-- The workflow states of `activity.activity`. -/
inductive State
  | planned
  | done
  | cancelled
  deriving DecidableEq, Repr, Fintype

/-- Lines 472–480 of `get_calendar_background_color`: the base color before
the state-dependent lightening.  `activity_color_type` is the context flag;
`self.activity_type and self.activity_type.color` and
`self.employee and self.employee.color` are Python truthiness tests (an empty
color string is falsy). -/
def calendarBaseColor (activityColorType : Bool)
    (activityType : Option ActivityTypeRec)
    (employee : Option EmployeeRec) : String :=
  let color := defaultColor
  if activityColorType then
    match activityType with
    | some t =>
      match t.color with
      | some c => if c.isEmpty then color else c
      | none => color
    | none => color
  else
    match employee with
    | some e =>
      match e.color with
      | some c => if c.isEmpty then color else c
      | none => color
    | none => color

/-- `Activity.get_calendar_background_color` (lines 472–486): the base color,
lightened by `increase_ratio(0.8)` whenever the state differs from
`planned`. -/
def get_calendar_background_color (activityColorType : Bool)
    (activityType : Option ActivityTypeRec) (employee : Option EmployeeRec)
    (state : State) : String :=
  let color := calendarBaseColor activityColorType activityType employee
  if state ≠ State.planned then
    (RGBv.ofString color).increaseRatio08.hexStr
  else
    color

/-- `Activity.get_calendar_color` (lines 466–470): black on light
backgrounds, white otherwise. -/
def get_calendar_color (background : String) : String :=
  if (RGBv.ofString background).gray > 128 then "black" else "white"

/-! ## Workflow transitions (`__setup__`, lines 123–138) -/

/-- The transition set added to `cls._transitions` in `Activity.__setup__`
(the inherited `Workflow._transitions` starts empty, so this union is the
whole set). -/
def activity_transitions : List (State × State) :=
  [(State.planned, State.done),
   (State.planned, State.cancelled),
   (State.done, State.planned),
   (State.done, State.cancelled),
   (State.cancelled, State.planned),
   (State.cancelled, State.done)]

/-! ## `Activity.create` (lines 379–391) -/

/-- Outcome of `Activity.create`: the configuration `UserError`
(`no_activity_sequence`), or the unhandled exception `update_dates` raises on
a `None` start timestamp without a date. -/
inductive CreateErr
  | noSequence
  | exc
  deriving DecidableEq, Repr

/-- The per-record loop of `create`: assign `vals['code']` the next value of
the sequence, then merge `update_dates(vals)` into `vals` (since
`update_dates` returns a full mutated copy of `vals`, `vals.update(...)` is
exactly that copy). -/
def createLoop (tz : Timezone) (now : Int) (seq : Nat) :
    List Values → Except CreateErr (List Values)
  | [] => Except.ok []
  | v :: rest =>
    match update_dates tz now { v with code := some (some seq) } none with
    | none => Except.error CreateErr.exc
    | some v1 =>
      match createLoop tz now (seq + 1) rest with
      | Except.ok l => Except.ok (v1 :: l)
      | Except.error e => Except.error e

/-- `Activity.create(vlist)`: raise the `no_activity_sequence` `UserError`
when the configuration has no sequence; otherwise give every record a code
drawn from the sequence (modelled as consecutive numbers starting at the
sequence state `s`) and derive its dates with `update_dates` before the
records are created. -/
def create (sequence : Option Nat) (tz : Timezone) (now : Int)
    (vlist : List Values) : Except CreateErr (List Values) :=
  match sequence with
  | none => Except.error CreateErr.noSequence
  | some s => createLoop tz now s vlist

/-! ## `Activity.get_day_busy_hours` (lines 488–514) -/

/-- A row of the `activity.activity` table as read by the busy-hours query. -/
structure Row where
  id : Nat
  employee : Nat
  date : Int
  duration : Option Int
  deriving DecidableEq, Repr

/-- SQL `SUM` over the `duration` column of a group: `NULL` values are
ignored, and a group with no non-`NULL` value sums to `NULL`. -/
def sqlSumDurations (rows : List Row) : Option Int :=
  let vals := rows.filterMap (·.duration)
  if vals.isEmpty then none else some (vals.foldl (· + ·) 0)

/-- The `sums` dict built from the grouped query: defined on a key
`(employee, date)` exactly when some table row with that employee has that
date, subject to the query's `WHERE` clause (employee among the batch's
employees, date between the batch's min and max dates); its value is the SQL
sum of that group's durations. -/
def busySums (table : List Row) (employees : List Nat) (minD maxD : Int)
    (key : Nat × Int) : Option (Option Int) :=
  let grp := table.filter (fun r => decide (r.employee ∈ employees ∧
    minD ≤ r.date ∧ r.date ≤ maxD ∧ r.employee = key.1 ∧ r.date = key.2))
  if grp.isEmpty then none else some (sqlSumDurations grp)

/-- `Activity.get_day_busy_hours(activities)` over a table of rows: `none`
models the `ValueError` of `min([])` on an empty batch; otherwise each
activity of the batch is mapped to `sums.get((employee, date), timedelta())`,
where a present dict value may itself be SQL `NULL` (`none`). -/
def get_day_busy_hours (table : List Row) (activities : List Row) :
    Option (List (Row × Option Int)) :=
  match activities with
  | [] => none
  | a :: rest =>
    let acts := a :: rest
    let employees := acts.map (·.employee)
    let minD := (rest.map (·.date)).foldl min a.date
    let maxD := (rest.map (·.date)).foldl max a.date
    some (acts.map (fun x =>
      (x, (busySums table employees minD maxD (x.employee, x.date)).getD
        (some 0))))

end Activity

namespace PartyCopy

/-- A Python dict passed as `default` to `copy`: association list from field
names to values, where an inner `none` is Python `None`. -/
abbrev PDict (α : Type) := List (String × Option α)

/-- Python dict lookup (first binding wins). -/
def dictLookup (k : String) : PDict α → Option (Option α)
  | [] => none
  | (k1, v) :: rest => if k = k1 then some v else dictLookup k rest

/-- Lines 12–16 of `party.py` (`Party.copy` up to the `super()` call): replace
a missing dict with `{}`, work on a copy of the caller's dict, and
`setdefault('activities', None)` (which appends the key when absent). -/
def party_copy_defaults (default : Option (PDict α)) : PDict α :=
  let d := default.getD []
  match dictLookup "activities" d with
  | some _ => d
  | none => d ++ [("activities", none)]

/-- A party record for the purposes of `copy`: a valuation of field names,
with `none` for an unset field; the `activities` one-to-many relation is
empty exactly when the `activities` field value is `none`. -/
structure PartyRec (α : Type) where
  fields : String → Option α

/-- Modelled from the spec: the framework's `ModelSQL.copy` (outside this
repository) duplicates each record, overriding every field named in the
`default` dict with the dict's value — so a to-many field defaulted to `None`
is empty on the copies — and leaving every other field as on the original. -/
def model_super_copy (parties : List (PartyRec α)) (default : PDict α) :
    List (PartyRec α) :=
  parties.map (fun p => ⟨fun f =>
    match dictLookup f default with
    | some v => v
    | none => p.fields f⟩)

/-- `Party.copy(parties, default)` (lines 11–17 of `party.py`). -/
def party_copy (parties : List (PartyRec α)) (default : Option (PDict α)) :
    List (PartyRec α) :=
  model_super_copy parties (party_copy_defaults default)

end PartyCopy

/-! ## Claim statements taken verbatim from the specification -/

namespace Activity

/-- Claim C1 as stated: when the update sets a start timestamp and no date,
`update_dates` derives date and time-of-day from the timestamp converted
UTC → company-local, normalizing an exactly-midnight local time to absent. -/
def claimC1 : Prop :=
  ∀ (tz : Timezone) (now : Int) (v : Values) (ds : Int) (r : Option Record)
    (out : Values),
    v.date = none → v.dtstart = some (some ds) →
    update_dates tz now v r = some out →
    out.date = some (some (dateOf (utc_to_local tz ds))) ∧
    out.time = some (if timeOf (utc_to_local tz ds) = 0 then none
      else some (timeOf (utc_to_local tz ds)))

/-- Claim C2 as stated: when the update sets a start timestamp and no date,
`update_dates` returns the derived mapping immediately — the start timestamp
is left as supplied (no local-to-UTC recomputation) and the duration becomes
`end − start` when both timestamps are present, else absent. -/
def claimC2 : Prop :=
  ∀ (tz : Timezone) (now : Int) (v : Values) (ds : Int) (r : Option Record)
    (out : Values),
    v.date = none → v.dtstart = some (some ds) →
    update_dates tz now v r = some out →
    out.dtstart = some (some ds) ∧
    out.duration = some (match v.dtend with
      | some (some de) => some (de - ds)
      | _ => none)

/-- The type's configured color, when an activity type is set. -/
def typeColor? (t : Option ActivityTypeRec) : Option String :=
  t.bind (·.color)

/-- The employee's configured color, when an employee is set. -/
def employeeColor? (e : Option EmployeeRec) : Option String :=
  e.bind (·.color)

/-- Python truthiness of an optional color string: set and non-empty. -/
def colorTruthy : Option String → Bool
  | some s => !s.isEmpty
  | none => false

/-- Claim C3 as stated: base color = type color when the flag is set and the
type has a color; otherwise the employee's color when the employee has one;
otherwise the fixed default. -/
def claimC3 : Prop :=
  ∀ (flag : Bool) (t : Option ActivityTypeRec) (e : Option EmployeeRec),
    calendarBaseColor flag t e =
      (if flag = true ∧ colorTruthy (typeColor? t) = true then
        (typeColor? t).getD defaultColor
      else if colorTruthy (employeeColor? e) = true then
        (employeeColor? e).getD defaultColor
      else defaultColor)

/-- Claim C4 as stated: each activity's busy-hours value is the total
duration of the *other* activities of the same employee on the same date,
the activity itself excluded. -/
def claimC4 : Prop :=
  ∀ (table activities : List Row) (out : List (Row × Option Int)),
    get_day_busy_hours table activities = some out →
    ∀ q ∈ out,
      q.2 = some (((table.filter (fun r => decide (r.employee = q.1.employee ∧
        r.date = q.1.date ∧ r.id ≠ q.1.id))).filterMap
          (·.duration)).foldl (· + ·) 0)

/-- Claim C5 as stated: with date, time-of-day and duration all present in
the update, the derived end minus the derived start equals the duration. -/
def claimC5 : Prop :=
  ∀ (tz : Timezone) (now : Int) (v : Values) (r : Option Record)
    (dt t d : Int) (out : Values),
    v.date = some (some dt) → v.time = some (some t) →
    v.duration = some (some d) →
    update_dates tz now v r = some out →
    ∃ s e, out.dtstart = some (some s) ∧ out.dtend = some (some e) ∧
      e - s = d

end Activity

/-! ## Theorems -/

namespace Activity

/-- `updateDatesCommon` only writes `dtstart`/`dtend`: `date` is kept. -/
theorem updateDatesCommon_date (tz : Timezone) (now : Int) (w : Values) :
    (updateDatesCommon tz now w).date = w.date := by
  unfold updateDatesCommon
  cases h : w.date.bind id <;> simp

/-- `updateDatesCommon` only writes `dtstart`/`dtend`: `time` is kept. -/
theorem updateDatesCommon_time (tz : Timezone) (now : Int) (w : Values) :
    (updateDatesCommon tz now w).time = w.time := by
  unfold updateDatesCommon
  cases h : w.date.bind id <;> simp

/-- `fillFromRecord` keeps a `date` key that is already present. -/
theorem fillFromRecord_date (w : Values) (r : Option Record) (x : Option Int)
    (h : w.date = some x) : (fillFromRecord w r).date = some x := by
  cases r <;> simp [fillFromRecord, h]

/-- `fillFromRecord` keeps a `time` key that is already present. -/
theorem fillFromRecord_time (w : Values) (r : Option Record) (x : Option Int)
    (h : w.time = some x) : (fillFromRecord w r).time = some x := by
  cases r <;> simp [fillFromRecord, h]

/-- Claim C6: the legal workflow transitions of `activity.activity` are
exactly the six ordered pairs over {planned, done, cancelled} that are not
self-loops. -/
theorem c6_transitions : activity_transitions.length = 6 ∧
    ∀ a b : State, ((a, b) ∈ activity_transitions ↔ a ≠ b) := by decide

/-- Claim C9: the foreground color is black exactly when the integer average
of the parsed background's channels exceeds 128, white otherwise; when the
hex parse fails the fallback triple (67, 84, 90) is used and the result is
white. -/
theorem c9_foreground : ∀ bg : String,
    (get_calendar_color bg =
      if Int.fdiv ((RGBv.ofString bg).r + (RGBv.ofString bg).g +
          (RGBv.ofString bg).b) 3 > 128 then "black" else "white") ∧
    (hexTriple? bg.data = none →
      RGBv.ofString bg = fallbackRGB ∧ get_calendar_color bg = "white") := by
  intro bg
  refine ⟨rfl, fun h => ?_⟩
  have hrgb : RGBv.ofString bg = fallbackRGB := by
    simp [RGBv.ofString, h]
  refine ⟨hrgb, ?_⟩
  unfold get_calendar_color
  rw [hrgb]
  decide

/-- Witness for C9 at the unparsable background string `"zz"`. -/
theorem c9_witness :
    RGBv.ofString "zz" = fallbackRGB ∧ get_calendar_color "zz" = "white" :=
  (c9_foreground "zz").2 (by decide)

/-- Claim C8: a non-planned activity's background color is the base color
with every channel increased by the integer four fifths of (255 − channel
average) and clamped to [0, 255]; a planned activity keeps the base color. -/
theorem c8_lightening : ∀ (flag : Bool) (t : Option ActivityTypeRec)
    (e : Option EmployeeRec) (st : State),
    (st ≠ State.planned → get_calendar_background_color flag t e st =
      (let c := RGBv.ofString (calendarBaseColor flag t e)
       let inc := Int.tdiv ((255 - Int.fdiv (c.r + c.g + c.b) 3) * 4) 5
       RGBv.hexStr ⟨max 0 (min 255 (c.r + inc)), max 0 (min 255 (c.g + inc)),
         max 0 (min 255 (c.b + inc))⟩)) ∧
    (st = State.planned →
      get_calendar_background_color flag t e st =
        calendarBaseColor flag t e) := by
  intro flag t e st
  constructor
  · intro h
    unfold get_calendar_background_color
    rw [if_pos h]
    rfl
  · intro h
    subst h
    unfold get_calendar_background_color
    rw [if_neg (by simp)]

/-- Witness for C8: a done activity with no colors configured gets the
lightened default color. -/
theorem c8_witness : get_calendar_background_color false none none
      State.done =
    (let c := RGBv.ofString (calendarBaseColor false none none)
     let inc := Int.tdiv ((255 - Int.fdiv (c.r + c.g + c.b) 3) * 4) 5
     RGBv.hexStr ⟨max 0 (min 255 (c.r + inc)), max 0 (min 255 (c.g + inc)),
       max 0 (min 255 (c.b + inc))⟩) :=
  (c8_lightening false none none State.done).1 (by decide)

/-- Claim C3 fails on the code: with the type-color flag set, a type without
a color and an employee with one, the code falls back to the default color,
not to the employee's. -/
theorem c3_counterexample : ¬ claimC3 := by
  intro h
  exact absurd (h true (some ⟨none⟩) (some ⟨some "#123456"⟩)) (by decide)

/-- Claim C3 (amended): when the flag is set the base color is the type's
color if present, else the default — the employee's color is never consulted;
when the flag is unset it is the employee's color if present, else the
default. -/
theorem c3_amended : ∀ (flag : Bool) (t : Option ActivityTypeRec)
    (e : Option EmployeeRec),
    (calendarBaseColor flag t e =
      if flag then
        (if colorTruthy (typeColor? t) then (typeColor? t).getD defaultColor
         else defaultColor)
      else
        (if colorTruthy (employeeColor? e) then
          (employeeColor? e).getD defaultColor
         else defaultColor)) ∧
    (flag = true → ∀ e2 : Option EmployeeRec,
      calendarBaseColor flag t e = calendarBaseColor flag t e2) := by
  have key : ∀ (f : Bool) (t1 : Option ActivityTypeRec)
      (e1 : Option EmployeeRec),
      calendarBaseColor f t1 e1 =
        if f then
          (if colorTruthy (typeColor? t1) then
            (typeColor? t1).getD defaultColor
           else defaultColor)
        else
          (if colorTruthy (employeeColor? e1) then
            (employeeColor? e1).getD defaultColor
           else defaultColor) := by
    intro f t1 e1
    cases f
    · rcases e1 with _ | ⟨_ | ecs⟩
      · simp [calendarBaseColor, employeeColor?, colorTruthy]
      · simp [calendarBaseColor, employeeColor?, colorTruthy]
      · by_cases h : ecs.isEmpty <;>
          simp [calendarBaseColor, employeeColor?, colorTruthy, h]
    · rcases t1 with _ | ⟨_ | tcs⟩
      · simp [calendarBaseColor, typeColor?, colorTruthy]
      · simp [calendarBaseColor, typeColor?, colorTruthy]
      · by_cases h : tcs.isEmpty <;>
          simp [calendarBaseColor, typeColor?, colorTruthy, h]
  intro flag t e
  refine ⟨key flag t e, fun hf e2 => ?_⟩
  subst hf
  rw [key true t e, key true t e2]
  simp

/-- Witness for C3 (amended) at the counterexample input: flag set, type
without color, employee with a color. -/
theorem c3_witness :
    calendarBaseColor true (some ⟨none⟩) (some ⟨some "#123456"⟩) =
      calendarBaseColor true (some ⟨none⟩) none :=
  (c3_amended true (some ⟨none⟩) (some ⟨some "#123456"⟩)).2 rfl none

end Activity

namespace Activity

/-- Claim C1 fails on the code: `update_dates` copies the start timestamp's
own date and time components, so a midnight start timestamp (with no
timezone configured) yields an explicit midnight time-of-day instead of an
absent one. -/
theorem c1_counterexample : ¬ claimC1 := by
  intro h
  have h2 := h none 0 { dtstart := some (some 0) } 0 none
    { date := some (some 0), time := some (some 0),
      dtstart := some (some 0), dtend := some none }
    rfl rfl (by decide)
  exact absurd h2.2 (by decide)

/-- Claim C1 (amended): `update_dates` derives date and time-of-day directly
from the start timestamp's own components, with no UTC-to-local conversion
and no midnight normalization; that conversion, with midnight mapped to
absent, is performed by the separate `on_change_dtstart` handler. -/
theorem c1_amended : ∀ (tz : Timezone) (now : Int) (v : Values) (ds : Int)
    (r : Option Record), v.date = none → v.dtstart = some (some ds) →
    (∀ out, update_dates tz now v r = some out →
      out.date = some (some (dateOf ds)) ∧
      out.time = some (some (timeOf ds))) ∧
    (∀ rec : Record, rec.dtstart = some ds →
      (on_change_dtstart tz rec).date = some (dateOf (utc_to_local tz ds)) ∧
      (on_change_dtstart tz rec).time =
        (if timeOf (utc_to_local tz ds) = 0 then none
         else some (timeOf (utc_to_local tz ds)))) := by
  intro tz now v ds r hdate hds
  constructor
  · intro out hout
    obtain ⟨vd, vt, vdur, vds, vde, vc⟩ := v
    simp only at hdate hds
    subst hdate
    subst hds
    cases vde with
    | some de? =>
      simp only [update_dates, Option.some.injEq] at hout
      subst hout
      exact ⟨rfl, rfl⟩
    | none =>
      simp only [update_dates, Option.some.injEq] at hout
      subst hout
      constructor
      · rw [updateDatesCommon_date, fillFromRecord_date]
        rfl
      · rw [updateDatesCommon_time, fillFromRecord_time]
        rfl
  · intro rec hrec
    obtain ⟨rd, rt, rdur, rds⟩ := rec
    simp only at hrec
    subst hrec
    exact ⟨rfl, rfl⟩

/-- Witness for C1 (amended): a start timestamp of noon UTC with a one-hour
timezone offset. -/
theorem c1_witness :
    (∀ out, update_dates (some fun _ => 3600) 0
        { dtstart := some (some 43200) } none = some out →
      out.date = some (some (dateOf 43200)) ∧
      out.time = some (some (timeOf 43200))) ∧
    (∀ rec : Record, rec.dtstart = some 43200 →
      (on_change_dtstart (some fun _ => 3600) rec).date =
        some (dateOf (utc_to_local (some fun _ => 3600) 43200)) ∧
      (on_change_dtstart (some fun _ => 3600) rec).time =
        (if timeOf (utc_to_local (some fun _ => 3600) 43200) = 0 then none
         else some (timeOf (utc_to_local (some fun _ => 3600) 43200)))) :=
  c1_amended (some fun _ => 3600) 0 { dtstart := some (some 43200) } 43200
    none rfl rfl

/-- Claim C2 fails on the code: without an end-timestamp entry there is no
short-circuit — the later steps run and, with a one-hour timezone offset,
overwrite the supplied start timestamp with its local-to-UTC conversion. -/
theorem c2_counterexample : ¬ claimC2 := by
  intro h
  have h2 := h (some fun _ => 3600) 0 { dtstart := some (some 0) } 0 none
    { date := some (some 0), time := some (some 0),
      dtstart := some (some (-3600)), dtend := some none }
    rfl rfl (by decide)
  exact absurd h2.1 (by decide)

/-- Claim C2 (amended): with a start timestamp and no date, `update_dates`
returns immediately only when the update also contains an end-timestamp
entry — then the mapping gets date and time from the start timestamp's
components, duration = end − start when the end value is a timestamp (absent
otherwise), and the start timestamp is left as supplied.  Without an
end-timestamp entry the remaining steps run and the start timestamp is
recomputed as the local-to-UTC conversion of the derived date and time. -/
theorem c2_amended : ∀ (tz : Timezone) (now : Int) (v : Values) (ds : Int)
    (r : Option Record), v.date = none → v.dtstart = some (some ds) →
    (∀ de?, v.dtend = some de? →
      update_dates tz now v r = some { v with
        date := some (some (dateOf ds)), time := some (some (timeOf ds)),
        duration := some (match de? with
          | some de => some (de - ds)
          | none => none) }) ∧
    (v.dtend = none → ∀ out, update_dates tz now v r = some out →
      out.dtstart =
        some (some (local_to_utc tz (combine (dateOf ds) (timeOf ds))))) := by
  intro tz now v ds r hdate hds
  obtain ⟨vd, vt, vdur, vds, vde, vc⟩ := v
  simp only at hdate hds
  subst hdate
  subst hds
  constructor
  · intro de? hde
    simp only at hde
    subst hde
    rfl
  · intro hde out hout
    simp only at hde
    subst hde
    simp only [update_dates, Option.some.injEq] at hout
    subst hout
    have hd : (fillFromRecord
        { date := some (some (dateOf ds)), time := some (some (timeOf ds)),
          duration := vdur, dtstart := some (some ds), dtend := none,
          code := vc } r).date = some (some (dateOf ds)) :=
      fillFromRecord_date _ _ _ rfl
    have ht : (fillFromRecord
        { date := some (some (dateOf ds)), time := some (some (timeOf ds)),
          duration := vdur, dtstart := some (some ds), dtend := none,
          code := vc } r).time = some (some (timeOf ds)) :=
      fillFromRecord_time _ _ _ rfl
    unfold updateDatesCommon
    rw [hd, ht]
    simp

end Activity

namespace Activity

/-- Witness for C2 (amended): an update carrying both start and end
timestamps short-circuits with duration = end − start. -/
theorem c2_witness :
    update_dates none 0
        { dtstart := some (some 3600), dtend := some (some 9000) } none =
      some { date := some (some (dateOf 3600)),
             time := some (some (timeOf 3600)),
             duration := some (some (9000 - 3600)),
             dtstart := some (some 3600), dtend := some (some 9000) } :=
  (c2_amended none 0 { dtstart := some (some 3600), dtend := some (some 9000) }
    3600 none rfl rfl).1 (some 9000) rfl

/-- Claim C5 fails on the code: a present but zero duration is falsy in
Python, so the end timestamp comes out absent instead of equal to the start
timestamp. -/
theorem c5_counterexample : ¬ claimC5 := by
  intro h
  obtain ⟨s, e, -, he, -⟩ := h none 0
    { date := some (some 5), time := some (some 3600),
      duration := some (some 0) } none 5 3600 0
    { date := some (some 5), time := some (some 3600),
      duration := some (some 0), dtstart := some (some 435600),
      dtend := some none }
    rfl rfl rfl (by decide)
  exact Option.noConfusion (Option.some.inj he)

/-- Claim C5 (amended): with date, time-of-day and duration entries present,
the derived start is the local-to-UTC conversion of their combination; when
the duration is a non-zero timespan the derived end is start + duration (so
end − start = duration exactly); when the duration is absent or zero the
derived end is absent. -/
theorem c5_amended : ∀ (tz : Timezone) (now : Int) (v : Values)
    (r : Option Record) (dt t : Int) (dur : Option Int) (out : Values),
    v.date = some (some dt) → v.time = some (some t) →
    v.duration = some dur →
    update_dates tz now v r = some out →
    out.dtstart = some (some (local_to_utc tz (combine dt t))) ∧
    (∀ d, dur = some d → d ≠ 0 →
      out.dtend = some (some (local_to_utc tz (combine dt t) + d)) ∧
      local_to_utc tz (combine dt t) + d - local_to_utc tz (combine dt t)
        = d) ∧
    ((dur = none ∨ dur = some 0) → out.dtend = some none) := by
  intro tz now v r dt t dur out hd ht hdur hout
  obtain ⟨vd, vt, vdu, vds, vde, vc⟩ := v
  simp only at hd ht hdur
  subst hd
  subst ht
  subst hdur
  have hfill : fillFromRecord
      { date := some (some dt), time := some (some t), duration := some dur,
        dtstart := vds, dtend := vde, code := vc } r =
      { date := some (some dt), time := some (some t), duration := some dur,
        dtstart := vds, dtend := vde, code := vc } := by
    cases r <;> simp [fillFromRecord]
  simp only [update_dates, hfill, Option.some.injEq] at hout
  subst hout
  refine ⟨rfl, ?_, ?_⟩
  · intro d hd0 hdne
    subst hd0
    constructor
    · show some (if d ≠ 0 then
          some (local_to_utc tz (combine dt t) + d) else none) =
        some (some (local_to_utc tz (combine dt t) + d))
      rw [if_pos hdne]
    · exact add_sub_cancel_left _ _
  · rintro (h0 | h0) <;> subst h0
    · rfl
    · show some (if (0 : Int) ≠ 0 then
          some (local_to_utc tz (combine dt t) + 0) else none) = some none
      simp

/-- Witness for C5 (amended): date 5, time 3600, duration one hour, no
timezone. -/
theorem c5_witness :
    ({ date := some (some 5), time := some (some 3600),
       duration := some (some 3600), dtstart := some (some 435600),
       dtend := some (some 439200) } : Values).dtend =
      some (some (local_to_utc none (combine 5 3600) + 3600)) ∧
    local_to_utc none (combine 5 3600) + 3600 -
      local_to_utc none (combine 5 3600) = 3600 :=
  (c5_amended none 0
    { date := some (some 5), time := some (some 3600),
      duration := some (some 3600) } none 5 3600 (some 3600)
    { date := some (some 5), time := some (some 3600),
      duration := some (some 3600), dtstart := some (some 435600),
      dtend := some (some 439200) }
    rfl rfl rfl (by decide)).2.1 3600 rfl (by decide)

end Activity

namespace Activity

/-- The per-record loop of `create` never raises the configuration error. -/
theorem createLoop_ne_noSequence (tz : Timezone) (now : Int) (s : Nat)
    (vlist : List Values) :
    createLoop tz now s vlist ≠ Except.error CreateErr.noSequence := by
  induction vlist generalizing s with
  | nil => simp [createLoop]
  | cons v rest ih =>
    simp only [createLoop]
    cases hc : update_dates tz now { v with code := some (some s) } none with
    | none => simp
    | some v1 =>
      cases hl : createLoop tz now (s + 1) rest with
      | ok l => simp
      | error e =>
        have := ih (s + 1)
        rw [hl] at this
        simpa using this

/-- Every record the loop outputs is the corresponding input with the next
sequence code assigned and its dates derived by `update_dates`. -/
theorem createLoop_get (tz : Timezone) (now : Int) (s : Nat)
    (vlist out : List Values)
    (h : createLoop tz now s vlist = Except.ok out) :
    ∀ i : Nat, out[i]? = (vlist[i]?).bind
      (fun v => update_dates tz now { v with code := some (some (s + i)) }
        none) := by
  induction vlist generalizing s out with
  | nil =>
    simp only [createLoop, Except.ok.injEq] at h
    subst h
    intro i
    simp
  | cons v rest ih =>
    simp only [createLoop] at h
    cases hc : update_dates tz now { v with code := some (some s) } none with
    | none => rw [hc] at h; exact absurd h (by simp)
    | some v1 =>
      rw [hc] at h
      cases hl : createLoop tz now (s + 1) rest with
      | error e => rw [hl] at h; exact absurd h (by simp)
      | ok l =>
        rw [hl] at h
        simp only [Except.ok.injEq] at h
        subst h
        intro i
        cases i with
        | zero =>
          simpa using hc.symm
        | succ j =>
          have := ih (s + 1) l hl j
          simpa [Nat.add_comm, Nat.add_assoc, Nat.add_left_comm] using this

/-- Claim C7: `create` raises the `no_activity_sequence` configuration error
exactly when no sequence is configured; with a sequence, every created record
carries a code generated from the sequence and is passed through
`update_dates` before creation. -/
theorem c7_create : ∀ (sequence : Option Nat) (tz : Timezone) (now : Int)
    (vlist : List Values),
    (create sequence tz now vlist = Except.error CreateErr.noSequence ↔
      sequence = none) ∧
    (∀ s, sequence = some s →
      ∀ out, create sequence tz now vlist = Except.ok out →
        ∀ i : Nat, out[i]? = (vlist[i]?).bind
          (fun v => update_dates tz now
            { v with code := some (some (s + i)) } none)) := by
  intro sequence tz now vlist
  constructor
  · constructor
    · intro h
      cases sequence with
      | none => rfl
      | some s => exact absurd h (createLoop_ne_noSequence tz now s vlist)
    · intro h
      subst h
      rfl
  · intro s hs out hout i
    subst hs
    exact createLoop_get tz now s vlist out hout i

/-- Witness for C7: creating one record with sequence state 5 and no
timezone. -/
theorem c7_witness :
    ([{ date := some (some 1), time := some (some 60),
        duration := some (some 30), dtstart := some (some 86460),
        dtend := some (some 86490), code := some (some 5) }] :
      List Values)[0]? =
      (([{ date := some (some 1), time := some (some 60),
           duration := some (some 30) }] : List Values)[0]?).bind
        (fun v => update_dates none 0
          { v with code := some (some (5 + 0)) } none) :=
  (c7_create (some 5) none 0
    [{ date := some (some 1), time := some (some 60),
       duration := some (some 30) }]).2 5 rfl
    [{ date := some (some 1), time := some (some 60),
       duration := some (some 30), dtstart := some (some 86460),
       dtend := some (some 86490), code := some (some 5) }] rfl 0

end Activity

namespace Activity

/-- A left fold of `min` is a lower bound of the start value and the list. -/
theorem foldl_min_le (l : List Int) (init : Int) :
    (l.foldl min init ≤ init) ∧ ∀ x ∈ l, l.foldl min init ≤ x := by
  induction l generalizing init with
  | nil => exact ⟨le_refl _, by simp⟩
  | cons c cs ih =>
    simp only [List.foldl_cons]
    refine ⟨le_trans (ih (min init c)).1 (min_le_left _ _), ?_⟩
    intro x hx
    rcases List.mem_cons.mp hx with rfl | hx2
    · exact le_trans (ih (min init x)).1 (min_le_right _ _)
    · exact (ih (min init c)).2 x hx2

/-- A left fold of `max` is an upper bound of the start value and the list. -/
theorem le_foldl_max (l : List Int) (init : Int) :
    (init ≤ l.foldl max init) ∧ ∀ x ∈ l, x ≤ l.foldl max init := by
  induction l generalizing init with
  | nil => exact ⟨le_refl _, by simp⟩
  | cons c cs ih =>
    simp only [List.foldl_cons]
    refine ⟨le_trans (le_max_left _ _) (ih (max init c)).1, ?_⟩
    intro x hx
    rcases List.mem_cons.mp hx with rfl | hx2
    · exact le_trans (le_max_right _ _) (ih (max init x)).1
    · exact (ih (max init c)).2 x hx2

/-- Claim C4 fails on the code: the aggregation does not exclude the activity
itself — a lone one-hour activity reports one busy hour, not zero. -/
theorem c4_counterexample : ¬ claimC4 := by
  intro h
  have h2 := h [⟨0, 1, 0, some 3600⟩] [⟨0, 1, 0, some 3600⟩]
    [(⟨0, 1, 0, some 3600⟩, some 3600)] (by decide)
    (⟨0, 1, 0, some 3600⟩, some 3600) (by decide)
  exact absurd h2 (by decide)

/-- Claim C4 (amended): each batched activity's busy-hours value is the SQL
sum of the durations of all table rows with the same employee and the same
date — the activity itself included — and `timedelta()` (zero) when no table
row matches that employee and date. -/
theorem c4_amended : ∀ (table activities : List Row)
    (out : List (Row × Option Int)),
    get_day_busy_hours table activities = some out →
    ∀ q ∈ out,
      q.2 = (if (table.filter (fun r =>
            decide (r.employee = q.1.employee ∧ r.date = q.1.date))).isEmpty
        then some 0
        else sqlSumDurations (table.filter (fun r =>
          decide (r.employee = q.1.employee ∧ r.date = q.1.date)))) := by
  intro table activities out hout q hq
  cases activities with
  | nil => exact absurd hout (by simp [get_day_busy_hours])
  | cons a rest =>
    simp only [get_day_busy_hours, Option.some.injEq] at hout
    subst hout
    obtain ⟨x, hx, rfl⟩ := List.mem_map.mp hq
    have hemp2 : x.employee ∈ (a :: rest).map (·.employee) :=
      List.mem_map_of_mem _ hx
    have hmin : (rest.map (·.date)).foldl min a.date ≤ x.date := by
      rcases List.mem_cons.mp hx with rfl | hx2
      · exact (foldl_min_le _ _).1
      · exact (foldl_min_le _ _).2 _ (List.mem_map_of_mem _ hx2)
    have hmax : x.date ≤ (rest.map (·.date)).foldl max a.date := by
      rcases List.mem_cons.mp hx with rfl | hx2
      · exact (le_foldl_max _ _).1
      · exact (le_foldl_max _ _).2 _ (List.mem_map_of_mem _ hx2)
    have hfe : table.filter (fun r =>
        decide (r.employee ∈ (a :: rest).map (·.employee) ∧
          (rest.map (·.date)).foldl min a.date ≤ r.date ∧
          r.date ≤ (rest.map (·.date)).foldl max a.date ∧
          r.employee = (x.employee, x.date).1 ∧
          r.date = (x.employee, x.date).2)) =
      table.filter (fun r =>
        decide (r.employee = x.employee ∧ r.date = x.date)) := by
      apply List.filter_congr
      intro r hr
      simp only [decide_eq_decide]
      constructor
      · rintro ⟨h1, h2, h3, h4, h5⟩
        exact ⟨h4, h5⟩
      · rintro ⟨h4, h5⟩
        refine ⟨?_, ?_, ?_, h4, h5⟩
        · rw [h4]; exact hemp2
        · rw [h5]; exact hmin
        · rw [h5]; exact hmax
    show (busySums table ((a :: rest).map (·.employee))
        ((rest.map (·.date)).foldl min a.date)
        ((rest.map (·.date)).foldl max a.date) (x.employee, x.date)).getD
        (some 0) = _
    unfold busySums
    rw [hfe]
    set grp := table.filter (fun r =>
      decide (r.employee = x.employee ∧ r.date = x.date)) with hG
    cases hIs : grp.isEmpty
    · simp [hIs]
    · simp [hIs]

/-- Witness for C4 (amended): a single one-hour activity. -/
theorem c4_witness :
    ((⟨0, 1, 0, some 3600⟩, some 3600) : Row × Option Int).2 =
      (if (([⟨0, 1, 0, some 3600⟩] : List Row).filter (fun r =>
          decide (r.employee =
              ((⟨0, 1, 0, some 3600⟩, some 3600) :
                Row × Option Int).1.employee ∧
            r.date = ((⟨0, 1, 0, some 3600⟩, some 3600) :
              Row × Option Int).1.date))).isEmpty
       then some 0
       else sqlSumDurations (([⟨0, 1, 0, some 3600⟩] : List Row).filter
         (fun r => decide (r.employee =
             ((⟨0, 1, 0, some 3600⟩, some 3600) :
               Row × Option Int).1.employee ∧
           r.date = ((⟨0, 1, 0, some 3600⟩, some 3600) :
             Row × Option Int).1.date)))) :=
  c4_amended [⟨0, 1, 0, some 3600⟩] [⟨0, 1, 0, some 3600⟩]
    [(⟨0, 1, 0, some 3600⟩, some 3600)] rfl
    (⟨0, 1, 0, some 3600⟩, some 3600) (List.mem_singleton.mpr rfl)

end Activity

namespace PartyCopy

/-- Appending a fresh key leaves lookups of other keys unchanged. -/
theorem dictLookup_append_ne (d : PDict α) (k : String) (v : Option α)
    (k2 : String) (h : k2 ≠ k) :
    dictLookup k2 (d ++ [(k, v)]) = dictLookup k2 d := by
  induction d with
  | nil => simp [dictLookup, h]
  | cons e tl ih =>
    obtain ⟨k1, v1⟩ := e
    by_cases hk : k2 = k1 <;> simp [dictLookup, hk, ih]

/-- Appending a key absent from the dict makes it found with its value. -/
theorem dictLookup_append_self (d : PDict α) (k : String) (v : Option α)
    (h : dictLookup k d = none) :
    dictLookup k (d ++ [(k, v)]) = some v := by
  induction d with
  | nil => simp [dictLookup]
  | cons e tl ih =>
    obtain ⟨k1, v1⟩ := e
    by_cases hk : k = k1
    · rw [dictLookup, if_pos hk] at h
      exact Option.noConfusion h
    · rw [dictLookup, if_neg hk] at h
      rw [List.cons_append, dictLookup, if_neg hk]
      exact ih h

/-- Claim C10: copying parties empties the copies' activities relation unless
the caller supplies an `activities` entry in the defaults; all other caller
entries are preserved, and a caller-supplied `activities` entry leaves the
defaults untouched. -/
theorem c10_party_copy : ∀ (α : Type) (parties : List (PartyRec α))
    (default : Option (PDict α)),
    (dictLookup "activities" (default.getD []) = none →
      ∀ p ∈ party_copy parties default, p.fields "activities" = none) ∧
    (∀ k, k ≠ "activities" →
      dictLookup k (party_copy_defaults default) =
        dictLookup k (default.getD [])) ∧
    (∀ v, dictLookup "activities" (default.getD []) = some v →
      party_copy_defaults default = default.getD []) := by
  intro α parties default
  refine ⟨?_, ?_, ?_⟩
  · intro h p hp
    unfold party_copy model_super_copy at hp
    obtain ⟨q, hq, rfl⟩ := List.mem_map.mp hp
    have hd : party_copy_defaults default =
        (default.getD []) ++ [("activities", none)] := by
      simp only [party_copy_defaults]
      rw [h]
    show (match dictLookup "activities" (party_copy_defaults default) with
      | some v => v
      | none => q.fields "activities") = none
    rw [hd, dictLookup_append_self _ _ _ h]
  · intro k hk
    simp only [party_copy_defaults]
    cases hl : dictLookup "activities" (default.getD []) with
    | some v => rfl
    | none => exact dictLookup_append_ne _ _ _ _ hk
  · intro v hv
    simp only [party_copy_defaults]
    rw [hv]

/-- Witness for C10: a caller default with only a `name` entry. -/
theorem c10_witness :
    dictLookup "code" (party_copy_defaults
        (some [("name", (some 3 : Option Nat))])) =
      dictLookup "code" [("name", (some 3 : Option Nat))] :=
  (c10_party_copy Nat [] (some [("name", some 3)])).2.1 "code" (by decide)

end PartyCopy
